import Mathlib

/-!
Verification development for the ARGO-DeepMSI data-preparation pipeline.

The pipeline's core table operations are shallowly embedded here:

* `cleanTables` embeds `clean_tables` (scripts/process.py, lines 256-307):
  a pandas DataFrame is modelled as a `Table` (a list of column names plus a
  list of rows, each row an association list from column name to an optional
  string cell, `none` standing for a missing value / NaN).  The function
  returns the two cleaned tables together with the three removal counts the
  script reports (patients dropped for missing status, orphan slides dropped,
  patients dropped for having no remaining slide); a pandas `KeyError` on a
  missing required column is modelled as `Except.error`.

* `split_tables_by_site` embeds the function of the same name
  (scripts/process.py, lines 423-468).  pandas semantics that matter here are
  kept: `Series.unique` keeps first-appearance order and lists NaN once
  (`uniqueVals`), while an elementwise `== site` comparison is `False` whenever
  either side is NaN (`siteEqPandas`).  The script's f-string
  `', '.join(sites)` raises `TypeError` when a site value is NaN (a float),
  and the per-site loop raises `KeyError` when a required column is missing;
  both are modelled as `Except.error`, in the source's evaluation order.

* `find_feature_file` embeds the function of the same name
  (scripts/2.preprocess_eval.py, lines 9-42) over an explicit filesystem tree
  (`Entry`).  Paths are lists of components; `os.path.join(a, b)` is
  `a ++ [b]`.  `os.listdir` on an existing non-directory raises
  `NotADirectoryError`, modelled as `Except.error`.

* `processedBatch` embeds the per-row "processed" marking of
  `generate_processing_histograms` (scripts/2.preprocess_eval.py, lines
  117-153): candidate extractor directories are discovered once per site and
  only the first one found is kept (the loop `break`s after the first match).
-/

/-! ## Table model -/

/-- A row of a pandas DataFrame: column name to cell, `none` is NaN. -/
abbrev Row := List (String × Option String)

/-- Cell access `row[col]`; `none` both for NaN and for a key absent from the
row (in pandas every row carries every column of its table, so the second case
does not arise for well-formed tables). -/
def getVal (r : Row) (c : String) : Option String :=
  (List.lookup c r).getD none

/-- A pandas DataFrame: its column list and its rows. -/
structure Table where
  cols : List String
  rows : List Row
deriving DecidableEq, Repr

/-! ## clean_tables (scripts/process.py 256-307) -/

/-- Step 1: `clinical.dropna(subset=['isMSIH'])`. -/
def step1 (clinical : Table) : Table :=
  { clinical with rows := clinical.rows.filter (fun r => (getVal r "isMSIH").isSome) }

/-- The PATIENT column of a table as a list of values.  The source wraps this
in `set(... .unique())` before membership tests; list `contains` has the same
membership semantics (pandas `isin` also matches NaN against NaN, as does
`BEq (Option String)`), so deduplication is immaterial. -/
def patientVals (t : Table) : List (Option String) :=
  t.rows.map (fun r => getVal r "PATIENT")

/-- Step 3: `slides[slides['PATIENT'].isin(valid_patients)]`. -/
def step3 (slides : Table) (valid : List (Option String)) : Table :=
  { slides with rows := slides.rows.filter (fun r => valid.contains (getVal r "PATIENT")) }

/-- Step 5: `clinical[clinical['PATIENT'].isin(patients_with_slides)]`. -/
def step5 (clinical : Table) (withSlides : List (Option String)) : Table :=
  { clinical with rows := clinical.rows.filter (fun r => withSlides.contains (getVal r "PATIENT")) }

/-- `clean_tables` (scripts/process.py 256-307).  Returns the cleaned
`(clinical, slides)` pair plus the three removal counts the script reports.
A `KeyError` from accessing a missing required column is an `Except.error`;
the three column accesses occur in source order (`isMSIH` in step 1,
clinical `PATIENT` in step 2, slide `PATIENT` in step 3), and only prints
happen in between, so the checks are hoisted to the front.  The `FILENAME`
and `SITE` columns are never read by this function. -/
def cleanTables (clinical slides : Table) :
    Except String (Table × Table × Nat × Nat × Nat) :=
  if "isMSIH" ∈ clinical.cols then
    if "PATIENT" ∈ clinical.cols then
      if "PATIENT" ∈ slides.cols then
        let c1 := step1 clinical
        let s1 := step3 slides (patientVals c1)
        let c2 := step5 c1 (patientVals s1)
        Except.ok (c2, s1,
          clinical.rows.length - c1.rows.length,
          slides.rows.length - s1.rows.length,
          c1.rows.length - c2.rows.length)
      else Except.error "KeyError: PATIENT"
    else Except.error "KeyError: PATIENT"
  else Except.error "KeyError: isMSIH"

/-! ## Concrete tables for the spec's end-to-end scenario -/

def exClinical : Table :=
  { cols := ["PATIENT", "isMSIH"]
    rows := [[("PATIENT", some "P1"), ("isMSIH", some "MSI-H")],
             [("PATIENT", some "P2"), ("isMSIH", some "MSS")],
             [("PATIENT", some "P3"), ("isMSIH", none)]] }

def exSlides : Table :=
  { cols := ["PATIENT", "FILENAME", "SITE"]
    rows := [[("PATIENT", some "P1"), ("FILENAME", some "s1"), ("SITE", some "siteA")],
             [("PATIENT", some "P2"), ("FILENAME", some "s2"), ("SITE", some "siteA")],
             [("PATIENT", some "P4"), ("FILENAME", some "s3"), ("SITE", some "siteB")]] }

def exOutClinical : Table :=
  { cols := ["PATIENT", "isMSIH"]
    rows := [[("PATIENT", some "P1"), ("isMSIH", some "MSI-H")],
             [("PATIENT", some "P2"), ("isMSIH", some "MSS")]] }

def exOutSlides : Table :=
  { cols := ["PATIENT", "FILENAME", "SITE"]
    rows := [[("PATIENT", some "P1"), ("FILENAME", some "s1"), ("SITE", some "siteA")],
             [("PATIENT", some "P2"), ("FILENAME", some "s2"), ("SITE", some "siteA")]] }

/-! ## Helper lemmas about cleanTables -/

theorem contains_iff_mem (l : List (Option String)) (a : Option String) :
    l.contains a = true ↔ a ∈ l :=
  List.elem_iff

theorem cleanTables_ok_elim (clinical slides c s : Table) (d1 d2 d3 : Nat)
    (h : cleanTables clinical slides = Except.ok (c, s, d1, d2, d3)) :
    "isMSIH" ∈ clinical.cols ∧
    "PATIENT" ∈ clinical.cols ∧
    "PATIENT" ∈ slides.cols ∧
    s = step3 slides (patientVals (step1 clinical)) ∧
    c = step5 (step1 clinical) (patientVals (step3 slides (patientVals (step1 clinical)))) ∧
    d1 = clinical.rows.length - (step1 clinical).rows.length ∧
    d2 = slides.rows.length - s.rows.length ∧
    d3 = (step1 clinical).rows.length - c.rows.length := by
  unfold cleanTables at h
  by_cases h1 : "isMSIH" ∈ clinical.cols <;> simp [h1] at h
  by_cases h2 : "PATIENT" ∈ clinical.cols <;> simp [h2] at h
  by_cases h3 : "PATIENT" ∈ slides.cols <;> simp [h3] at h
  obtain ⟨hc, hs, hd1, hd2, hd3⟩ := h
  exact ⟨h1, h2, h3, hs.symm, hc.symm,
    hd1.symm, by rw [← hs]; exact hd2.symm, by rw [← hc]; exact hd3.symm⟩

theorem mem_step1 (clinical : Table) (p : Row) (hp : p ∈ (step1 clinical).rows) :
    p ∈ clinical.rows ∧ (getVal p "isMSIH").isSome = true := by
  simpa [step1] using List.mem_filter.mp hp

theorem mem_step3 (slides : Table) (valid : List (Option String)) (r : Row)
    (hr : r ∈ (step3 slides valid).rows) :
    r ∈ slides.rows ∧ getVal r "PATIENT" ∈ valid := by
  have h := List.mem_filter.mp hr
  exact ⟨h.1, (contains_iff_mem _ _).mp h.2⟩

theorem mem_step5 (clinical : Table) (withSlides : List (Option String)) (p : Row)
    (hp : p ∈ (step5 clinical withSlides).rows) :
    p ∈ clinical.rows ∧ getVal p "PATIENT" ∈ withSlides := by
  have h := List.mem_filter.mp hp
  exact ⟨h.1, (contains_iff_mem _ _).mp h.2⟩

theorem mem_patientVals (t : Table) (r : Row) (hr : r ∈ t.rows) :
    getVal r "PATIENT" ∈ patientVals t :=
  List.mem_map.mpr ⟨r, hr, rfl⟩

/-! ## Claim theorems about clean_tables -/

/-- Claim C1: referential integrity of the output of clean_tables: every
output patient row has a non-missing isMSIH value, every output slide row's
PATIENT value occurs on some output patient row, and every output patient row
has at least one output slide row referencing it. -/
theorem clean_tables_referential_integrity
    (clinical slides c s : Table) (d1 d2 d3 : Nat)
    (h : cleanTables clinical slides = Except.ok (c, s, d1, d2, d3)) :
    (∀ p ∈ c.rows, (getVal p "isMSIH").isSome = true) ∧
    (∀ r ∈ s.rows, ∃ p ∈ c.rows, getVal p "PATIENT" = getVal r "PATIENT") ∧
    (∀ p ∈ c.rows, ∃ r ∈ s.rows, getVal r "PATIENT" = getVal p "PATIENT") := by
  obtain ⟨-, -, -, hs, hc, -, -, -⟩ := cleanTables_ok_elim clinical slides c s d1 d2 d3 h
  subst hs hc
  refine ⟨?_, ?_, ?_⟩
  · intro p hp
    exact (mem_step1 clinical p (mem_step5 _ _ p hp).1).2
  · intro r hr
    obtain ⟨hrs, hrv⟩ := mem_step3 slides _ r hr
    obtain ⟨p, hp1, hpv⟩ := List.mem_map.mp hrv
    refine ⟨p, ?_, hpv⟩
    have hpmem : getVal p "PATIENT" ∈ patientVals (step3 slides (patientVals (step1 clinical))) := by
      rw [hpv]
      exact mem_patientVals _ r hr
    exact List.mem_filter.mpr ⟨hp1, (contains_iff_mem _ _).mpr hpmem⟩
  · intro p hp
    obtain ⟨-, hpv⟩ := mem_step5 _ _ p hp
    obtain ⟨r, hrs, hrv⟩ := List.mem_map.mp hpv
    exact ⟨r, hrs, hrv⟩

def exC1w : Except String (Table × Table × Nat × Nat × Nat) :=
  cleanTables exClinical exSlides

/-- Witness for C1 at the concrete end-to-end tables. -/
theorem clean_tables_referential_integrity_witness :
    (∀ p ∈ exOutClinical.rows, (getVal p "isMSIH").isSome = true) ∧
    (∀ r ∈ exOutSlides.rows, ∃ p ∈ exOutClinical.rows,
        getVal p "PATIENT" = getVal r "PATIENT") ∧
    (∀ p ∈ exOutClinical.rows, ∃ r ∈ exOutSlides.rows,
        getVal r "PATIENT" = getVal p "PATIENT") :=
  clean_tables_referential_integrity exClinical exSlides
    exOutClinical exOutSlides 1 1 0 (by rfl)

/-- Claim C2: the end-to-end scenario of the spec: P3 is dropped for missing
status, P4's orphan slide s3 is dropped, nobody is dropped in the final pass,
and the removal counts are (1, 1, 0). -/
theorem clean_tables_end_to_end_example :
    cleanTables exClinical exSlides =
      Except.ok (exOutClinical, exOutSlides, 1, 1, 0) := by
  rfl

/-- Claim C3: clean_tables is idempotent: applied to its own output it removes
zero rows from either table and returns that output unchanged. -/
theorem clean_tables_idempotent (clinical slides c s : Table) (d1 d2 d3 : Nat)
    (h : cleanTables clinical slides = Except.ok (c, s, d1, d2, d3)) :
    cleanTables c s = Except.ok (c, s, 0, 0, 0) := by
  obtain ⟨h1, h2, h3, hs, hc, -, -, -⟩ := cleanTables_ok_elim clinical slides c s d1 d2 d3 h
  have hccols : c.cols = clinical.cols := by rw [hc]; rfl
  have hscols : s.cols = slides.cols := by rw [hs]; rfl
  have hstep1 : step1 c = c := by
    unfold step1
    have : c.rows.filter (fun r => (getVal r "isMSIH").isSome) = c.rows := by
      apply List.filter_eq_self.mpr
      intro p hp
      rw [hc] at hp
      exact (mem_step1 clinical p (mem_step5 _ _ p hp).1).2
    rw [this]
  have hsref : ∀ r ∈ s.rows, getVal r "PATIENT" ∈ patientVals c := by
    intro r hr
    rw [hs] at hr
    obtain ⟨-, hrv⟩ := mem_step3 slides _ r hr
    obtain ⟨p, hp1, hpv⟩ := List.mem_map.mp hrv
    have hpc : p ∈ c.rows := by
      rw [hc]
      refine List.mem_filter.mpr ⟨hp1, (contains_iff_mem _ _).mpr ?_⟩
      rw [hpv, ← hs]
      rw [hs]
      exact mem_patientVals _ r hr
    rw [← hpv]
    exact mem_patientVals _ p hpc
  have hstep3 : step3 s (patientVals c) = s := by
    unfold step3
    have : s.rows.filter (fun r => (patientVals c).contains (getVal r "PATIENT")) = s.rows := by
      apply List.filter_eq_self.mpr
      intro r hr
      exact (contains_iff_mem _ _).mpr (hsref r hr)
    rw [this]
  have hstep5 : step5 c (patientVals s) = c := by
    unfold step5
    have : c.rows.filter (fun r => (patientVals s).contains (getVal r "PATIENT")) = c.rows := by
      apply List.filter_eq_self.mpr
      intro p hp
      refine (contains_iff_mem _ _).mpr ?_
      rw [hc] at hp
      obtain ⟨-, hpv⟩ := mem_step5 _ _ p hp
      rw [← hs] at hpv
      exact hpv
    rw [this]
  unfold cleanTables
  rw [if_pos (hccols ▸ h1), if_pos (hccols ▸ h2), if_pos (hscols ▸ h3)]
  simp only [hstep1, hstep3, hstep5, Nat.sub_self]

/-- Witness for C3 at the concrete end-to-end tables. -/
theorem clean_tables_idempotent_witness :
    cleanTables exOutClinical exOutSlides =
      Except.ok (exOutClinical, exOutSlides, 0, 0, 0) :=
  clean_tables_idempotent exClinical exSlides exOutClinical exOutSlides 1 1 0 (by rfl)

/-- Claim C4: step order is respected, not short-circuited: a patient row with
a non-missing isMSIH that no slide row of the post-step-3 slide table (which is
exactly the output slide table) references survives step 1 and is nevertheless
removed by step 5, hence is absent from the output clinical table. -/
theorem clean_tables_step_order (clinical slides c s : Table) (d1 d2 d3 : Nat)
    (h : cleanTables clinical slides = Except.ok (c, s, d1, d2, d3))
    (p : Row) (hp : p ∈ clinical.rows)
    (hmsi : (getVal p "isMSIH").isSome = true)
    (horphan : ∀ r ∈ s.rows, getVal r "PATIENT" ≠ getVal p "PATIENT") :
    p ∈ (step1 clinical).rows ∧ p ∉ c.rows := by
  obtain ⟨-, -, -, hs, hc, -, -, -⟩ := cleanTables_ok_elim clinical slides c s d1 d2 d3 h
  constructor
  · exact List.mem_filter.mpr ⟨hp, hmsi⟩
  · intro hpc
    rw [hc] at hpc
    obtain ⟨-, hpv⟩ := mem_step5 _ _ p hpc
    obtain ⟨r, hrs, hrv⟩ := List.mem_map.mp hpv
    rw [← hs] at hrs
    exact horphan r hrs hrv

def exC4Clinical : Table :=
  { cols := ["PATIENT", "isMSIH"]
    rows := [[("PATIENT", some "P1"), ("isMSIH", some "MSI-H")],
             [("PATIENT", some "P2"), ("isMSIH", some "MSS")]] }

def exC4Slides : Table :=
  { cols := ["PATIENT", "FILENAME", "SITE"]
    rows := [[("PATIENT", some "P1"), ("FILENAME", some "s1"), ("SITE", some "siteA")]] }

def exC4Row : Row := [("PATIENT", some "P2"), ("isMSIH", some "MSS")]

/-- Witness for C4: P2 has a valid MSS status but no surviving slide, so it
survives step 1 and is gone from the final clinical table. -/
theorem clean_tables_step_order_witness :
    exC4Row ∈ (step1 exC4Clinical).rows ∧
    exC4Row ∉ ({ cols := ["PATIENT", "isMSIH"]
                 rows := [[("PATIENT", some "P1"), ("isMSIH", some "MSI-H")]] } : Table).rows :=
  clean_tables_step_order exC4Clinical exC4Slides
    { cols := ["PATIENT", "isMSIH"]
      rows := [[("PATIENT", some "P1"), ("isMSIH", some "MSI-H")]] }
    exC4Slides 0 0 1 (by rfl) exC4Row (by decide) (by decide) (by decide)

/-- Claim C10: clean_tables only removes rows — each output table's row list
is a sublist of the corresponding input's row list (rows kept verbatim, order
preserved) and the column lists are unchanged.  The source copies both inputs
before filtering (lines 266-268), so the caller's tables are untouched; the
embedding is a pure function, which models exactly that. -/
theorem clean_tables_frame (clinical slides c s : Table) (d1 d2 d3 : Nat)
    (h : cleanTables clinical slides = Except.ok (c, s, d1, d2, d3)) :
    List.Sublist c.rows clinical.rows ∧
    List.Sublist s.rows slides.rows ∧
    c.cols = clinical.cols ∧ s.cols = slides.cols := by
  obtain ⟨-, -, -, hs, hc, -, -, -⟩ := cleanTables_ok_elim clinical slides c s d1 d2 d3 h
  subst hs hc
  refine ⟨?_, ?_, rfl, rfl⟩
  · exact List.Sublist.trans (List.filter_sublist _) (List.filter_sublist _)
  · exact List.filter_sublist _

/-- Witness for C10 at the concrete end-to-end tables. -/
theorem clean_tables_frame_witness :
    List.Sublist exOutClinical.rows exClinical.rows ∧
    List.Sublist exOutSlides.rows exSlides.rows ∧
    exOutClinical.cols = exClinical.cols ∧ exOutSlides.cols = exSlides.cols :=
  clean_tables_frame exClinical exSlides exOutClinical exOutSlides 1 1 0 (by rfl)

/-! ## Claim C8: error semantics of clean_tables -/

def exC8Slides : Table :=
  { cols := ["PATIENT", "SITE"]
    rows := [[("PATIENT", some "P1"), ("SITE", some "siteA")]] }

/-- Counterexample to C8 as stated: the slide table lacks its FILENAME column,
yet clean_tables returns normally — clean_tables never reads FILENAME
(scripts/process.py 256-307 touch only isMSIH and PATIENT). -/
theorem clean_tables_missing_filename_ok :
    ("FILENAME" ∈ exC8Slides.cols → False) ∧
    cleanTables exC4Clinical exC8Slides =
      Except.ok
        ({ cols := ["PATIENT", "isMSIH"]
           rows := [[("PATIENT", some "P1"), ("isMSIH", some "MSI-H")]] },
         exC8Slides, 0, 0, 1) := by
  exact ⟨by decide, by rfl⟩

/-- Claim C8, amended: clean_tables fails exactly when the clinical table
lacks isMSIH or PATIENT or the slide table lacks PATIENT; FILENAME is never
required.  With those three columns present it always returns normally with
its removal counts, even when every row is removed. -/
theorem clean_tables_error_iff (clinical slides : Table) :
    ((∃ e, cleanTables clinical slides = Except.error e) ↔
      ("isMSIH" ∉ clinical.cols ∨ "PATIENT" ∉ clinical.cols ∨ "PATIENT" ∉ slides.cols)) ∧
    ((∃ out, cleanTables clinical slides = Except.ok out) ↔
      ("isMSIH" ∈ clinical.cols ∧ "PATIENT" ∈ clinical.cols ∧ "PATIENT" ∈ slides.cols)) := by
  unfold cleanTables
  by_cases h1 : "isMSIH" ∈ clinical.cols <;>
    by_cases h2 : "PATIENT" ∈ clinical.cols <;>
      by_cases h3 : "PATIENT" ∈ slides.cols <;>
        simp [h1, h2, h3]

/-! ## split_tables_by_site (scripts/process.py 423-468) -/

/-- pandas `Series.unique`: first-appearance order, NaN listed once.  `seen`
is the accumulator of values already emitted. -/
def uniqueAux : List (Option String) → List (Option String) → List (Option String)
  | [], _ => []
  | x :: xs, seen => if x ∈ seen then uniqueAux xs seen else x :: uniqueAux xs (x :: seen)

def uniqueVals (l : List (Option String)) : List (Option String) :=
  uniqueAux l []

/-- A pandas elementwise comparison with a scalar: NaN compares unequal to
everything, including NaN itself. -/
def siteEqPandas (cell target : Option String) : Bool :=
  match cell, target with
  | some a, some b => a == b
  | _, _ => false

/-- The body of the per-site loop (scripts/process.py 446-457): the slide
subset for one site and the clinical subset of the patients appearing in it. -/
def sitePartition (clinical slides : Table) : List (Option String × Table × Table) :=
  (uniqueVals (slides.rows.map (fun r => getVal r "SITE"))).map (fun site =>
    let siteSlides : Table :=
      { slides with rows := slides.rows.filter (fun r => siteEqPandas (getVal r "SITE") site) }
    let siteClinicalRows :=
      clinical.rows.filter (fun r => (patientVals siteSlides).contains (getVal r "PATIENT"))
    let siteClinical : Table := { clinical with rows := siteClinicalRows }
    (site, siteClinical, siteSlides))

/-- `split_tables_by_site` (scripts/process.py 423-468).  Returns one
`(site, clinical subset, slide subset)` triple per distinct site, in
first-appearance order.  Error cases, in the source's evaluation order:
the f-string `', '.join(sites)` (line 440) raises `TypeError` when some site
value is NaN; with at least one site, the loop body then reads
`site_slides['PATIENT']` (line 451), `clinical_table['PATIENT']` (line 454)
and `site_clinical['isMSIH']` (line 460), each a `KeyError` when the column
is missing.  When the slide table has no SITE column the source prints an
error and returns empty containers (line 436), modelled as `ok []`. -/
def split_tables_by_site (clinical slides : Table) :
    Except String (List (Option String × Table × Table)) :=
  if "SITE" ∈ slides.cols then
    let sites := uniqueVals (slides.rows.map (fun r => getVal r "SITE"))
    if none ∈ sites then
      Except.error "TypeError: sequence item: expected str instance, float found"
    else if sites = [] then Except.ok []
    else if "PATIENT" ∈ slides.cols then
      if "PATIENT" ∈ clinical.cols then
        if "isMSIH" ∈ clinical.cols then
          Except.ok (sitePartition clinical slides)
        else Except.error "KeyError: isMSIH"
      else Except.error "KeyError: PATIENT"
    else Except.error "KeyError: PATIENT"
  else Except.ok []

/-! ### Helper lemmas about uniqueVals and site partitioning -/

theorem mem_uniqueAux (a : Option String) :
    ∀ (l seen : List (Option String)), a ∈ uniqueAux l seen ↔ a ∈ l ∧ a ∉ seen := by
  intro l
  induction l with
  | nil => intro seen; simp [uniqueAux]
  | cons x xs ih =>
    intro seen
    by_cases hx : x ∈ seen
    · rw [uniqueAux, if_pos hx, ih]
      constructor
      · rintro ⟨ha, hna⟩; exact ⟨List.mem_cons_of_mem x ha, hna⟩
      · rintro ⟨ha, hna⟩
        rcases List.mem_cons.mp ha with h | h
        · exact absurd (h ▸ hx) hna
        · exact ⟨h, hna⟩
    · rw [uniqueAux, if_neg hx]
      constructor
      · intro ha
        rcases List.mem_cons.mp ha with h | h
        · exact ⟨h ▸ List.mem_cons_self x xs, h ▸ hx⟩
        · obtain ⟨h1, h2⟩ := (ih (x :: seen)).mp h
          exact ⟨List.mem_cons_of_mem x h1, fun hs => h2 (List.mem_cons_of_mem x hs)⟩
      · rintro ⟨ha, hna⟩
        by_cases hax : a = x
        · exact hax ▸ List.mem_cons_self x _
        · rcases List.mem_cons.mp ha with h | h
          · exact absurd h hax
          · refine List.mem_cons_of_mem x ((ih (x :: seen)).mpr ⟨h, ?_⟩)
            intro hs
            rcases List.mem_cons.mp hs with h9 | h9
            · exact hax h9
            · exact hna h9

theorem mem_uniqueVals (a : Option String) (l : List (Option String)) :
    a ∈ uniqueVals l ↔ a ∈ l := by
  rw [uniqueVals, mem_uniqueAux]
  simp

theorem nodup_uniqueAux :
    ∀ (l seen : List (Option String)), (uniqueAux l seen).Nodup := by
  intro l
  induction l with
  | nil => intro seen; simp [uniqueAux]
  | cons x xs ih =>
    intro seen
    by_cases hx : x ∈ seen
    · rw [uniqueAux, if_pos hx]; exact ih seen
    · rw [uniqueAux, if_neg hx]
      refine List.nodup_cons.mpr ⟨?_, ih (x :: seen)⟩
      intro hmem
      exact ((mem_uniqueAux x xs (x :: seen)).mp hmem).2 (List.mem_cons_self x seen)

theorem nodup_uniqueVals (l : List (Option String)) : (uniqueVals l).Nodup :=
  nodup_uniqueAux l []

theorem siteEqPandas_eq_true_iff (a b : Option String) :
    siteEqPandas a b = true ↔ ∃ x, a = some x ∧ b = some x := by
  cases a with
  | none => simp [siteEqPandas]
  | some x =>
    cases b with
    | none => simp [siteEqPandas]
    | some y =>
      simp only [siteEqPandas, beq_iff_eq]
      constructor
      · intro h
        exact ⟨x, rfl, by rw [h]⟩
      · rintro ⟨z, hz1, hz2⟩
        rw [Option.some.inj hz1, Option.some.inj hz2]

/-- Disjoint filters over a nodup list of keys partition a row list whose
keys are all present and non-missing. -/
theorem join_filter_perm (key : Row → Option String) :
    ∀ (ks : List (Option String)) (l : List Row),
      ks.Nodup → (∀ k ∈ ks, k.isSome = true) → (∀ r ∈ l, key r ∈ ks) →
      List.Perm ((ks.map (fun k => l.filter (fun r => siteEqPandas (key r) k))).flatten) l := by
  intro ks
  induction ks with
  | nil =>
    intro l _ _ hcover
    have : l = [] := List.eq_nil_iff_forall_not_mem.mpr (fun r hr => by simpa using hcover r hr)
    simp [this]
  | cons k ks ih =>
    intro l hnd hsome hcover
    obtain ⟨hknotin, hndtail⟩ := List.nodup_cons.mp hnd
    obtain ⟨kv, hkv⟩ := Option.isSome_iff_exists.mp (hsome k (List.mem_cons_self k ks))
    have hblocks : ks.map (fun q => l.filter (fun r => siteEqPandas (key r) q)) =
        ks.map (fun q =>
          (l.filter (fun r => !(siteEqPandas (key r) k))).filter
            (fun r => siteEqPandas (key r) q)) := by
      apply List.map_congr_left
      intro q hq
      rw [List.filter_filter]
      apply List.filter_congr
      intro r hr
      cases hpq : siteEqPandas (key r) q
      · simp
      · obtain ⟨x, hx1, hx2⟩ := (siteEqPandas_eq_true_iff _ _).mp hpq
        have hqk : siteEqPandas (key r) k = false := by
          cases hpk : siteEqPandas (key r) k
          · rfl
          · obtain ⟨y, hy1, hy2⟩ := (siteEqPandas_eq_true_iff _ _).mp hpk
            rw [hx1] at hy1
            have : q = k := by rw [hx2, hy2, ← Option.some.inj hy1]
            exact absurd (this ▸ hq) hknotin
        simp [hqk]
    rw [List.map_cons, List.flatten_cons, hblocks]
    have hcover' : ∀ r ∈ l.filter (fun r => !(siteEqPandas (key r) k)), key r ∈ ks := by
      intro r hr
      obtain ⟨hrl, hrneg⟩ := List.mem_filter.mp hr
      rcases List.mem_cons.mp (hcover r hrl) with h | h
      · exfalso
        have : siteEqPandas (key r) k = true := by
          rw [h, hkv]
          exact (siteEqPandas_eq_true_iff _ _).mpr ⟨kv, rfl, rfl⟩
        rw [this] at hrneg
        simp at hrneg
      · exact h
    have hperm := ih (l.filter (fun r => !(siteEqPandas (key r) k))) hndtail
      (fun q hq => hsome q (List.mem_cons_of_mem k hq)) hcover'
    have happ : List.Perm
        (l.filter (fun r => siteEqPandas (key r) k) ++
          (ks.map (fun q =>
            (l.filter (fun r => !(siteEqPandas (key r) k))).filter
              (fun r => siteEqPandas (key r) q))).flatten)
        (l.filter (fun r => siteEqPandas (key r) k) ++
          l.filter (fun r => !(siteEqPandas (key r) k))) :=
      List.Perm.append_left _ hperm
    exact happ.trans (List.filter_append_perm _ l)

/-! ## Claim theorems about split_tables_by_site -/

def exC7Slides : Table :=
  { cols := ["PATIENT", "FILENAME", "SITE"]
    rows := [[("PATIENT", some "P1"), ("FILENAME", some "s1"), ("SITE", none)]] }

/-- Counterexample to C7 as stated: on a reconciled slide table with one row
whose SITE is missing, split_tables_by_site does not partition at all — the
source's `', '.join(sites)` raises `TypeError` on the NaN site (and even
without that print, the pandas filter `SITE == NaN` matches nothing, so the
row would be lost).  Hence no output partition family whose union is the
input exists. -/
theorem split_tables_missing_site_not_partitioned :
    split_tables_by_site exOutClinical exC7Slides =
      Except.error "TypeError: sequence item: expected str instance, float found" ∧
    ¬ ∃ parts, split_tables_by_site exOutClinical exC7Slides = Except.ok parts ∧
        List.Perm ((parts.map (fun t => t.2.2.rows)).flatten) exC7Slides.rows := by
  have h : split_tables_by_site exOutClinical exC7Slides =
      Except.error "TypeError: sequence item: expected str instance, float found" := by rfl
  refine ⟨h, ?_⟩
  rintro ⟨parts, hp, -⟩
  rw [h] at hp
  exact Except.noConfusion hp

/-- Claim C7, amended: when every slide row carries a non-missing SITE value
(and the tables have the columns the routine reads), split_tables_by_site
succeeds and the concatenation of the per-site slide tables is a permutation
of the input slide table: no row lost, none duplicated. -/
theorem split_tables_partition_perm (clinical slides : Table)
    (hcolS : "SITE" ∈ slides.cols)
    (hsP : "PATIENT" ∈ slides.cols)
    (hcP : "PATIENT" ∈ clinical.cols)
    (hcM : "isMSIH" ∈ clinical.cols)
    (hsite : ∀ r ∈ slides.rows, (getVal r "SITE").isSome = true) :
    ∃ parts, split_tables_by_site clinical slides = Except.ok parts ∧
      List.Perm ((parts.map (fun t => t.2.2.rows)).flatten) slides.rows := by
  have hnone : none ∉ uniqueVals (slides.rows.map (fun r => getVal r "SITE")) := by
    intro hmem
    obtain ⟨r, hr, hrv⟩ := List.mem_map.mp ((mem_uniqueVals _ _).mp hmem)
    have := hsite r hr
    rw [hrv] at this
    simp at this
  by_cases hempty : uniqueVals (slides.rows.map (fun r => getVal r "SITE")) = []
  · have hrows : slides.rows = [] := by
      cases hrows : slides.rows with
      | nil => rfl
      | cons r rs =>
        exfalso
        have : getVal r "SITE" ∈ uniqueVals (slides.rows.map (fun q => getVal q "SITE")) := by
          refine (mem_uniqueVals _ _).mpr (List.mem_map.mpr ⟨r, ?_, rfl⟩)
          rw [hrows]
          exact List.mem_cons_self r rs
        rw [hempty] at this
        simp at this
    refine ⟨[], ?_, by simp [hrows]⟩
    unfold split_tables_by_site
    rw [if_pos hcolS, if_neg hnone, if_pos hempty]
  · refine ⟨sitePartition clinical slides, ?_, ?_⟩
    · unfold split_tables_by_site
      rw [if_pos hcolS, if_neg hnone, if_neg hempty, if_pos hsP, if_pos hcP, if_pos hcM]
    · unfold sitePartition
      rw [List.map_map]
      exact join_filter_perm (fun r => getVal r "SITE")
        (uniqueVals (slides.rows.map (fun r => getVal r "SITE"))) slides.rows
        (nodup_uniqueVals _)
        (fun k hk => by
          obtain ⟨r, hr, hrv⟩ := List.mem_map.mp ((mem_uniqueVals _ _).mp hk)
          exact hrv ▸ hsite r hr)
        (fun r hr => (mem_uniqueVals _ _).mpr (List.mem_map.mpr ⟨r, hr, rfl⟩))

/-- Witness for the amended C7 at the two-site end-to-end slide table. -/
theorem split_tables_partition_perm_witness :
    ∃ parts, split_tables_by_site exClinical exSlides = Except.ok parts ∧
      List.Perm ((parts.map (fun t => t.2.2.rows)).flatten) exSlides.rows :=
  split_tables_partition_perm exClinical exSlides
    (by decide) (by decide) (by decide) (by decide) (by decide)

/-! ## Filesystem model and the Feature Locator
(scripts/2.preprocess_eval.py 9-42 and 117-153) -/

/-- A filesystem entry: a plain file or a directory with an ordered child
list (the order is the `os.listdir` order). -/
inductive Entry where
  | file (name : String)
  | dir (name : String) (children : List Entry)

def entryName : Entry → String
  | Entry.file n => n
  | Entry.dir n _ => n

/-- Walk a path (a list of components) down from `root`. -/
def resolve (e : Entry) (path : List String) : Option Entry :=
  match path with
  | [] => some e
  | p :: ps =>
    match e with
    | Entry.file _ => none
    | Entry.dir _ ch =>
      match ch.find? (fun c => entryName c == p) with
      | some c => resolve c ps
      | none => none

/-- `os.path.exists`. -/
def pathExists (root : Entry) (p : List String) : Bool :=
  (resolve root p).isSome

/-- True when the path resolves to a plain file (then `os.listdir` raises). -/
def isFileAt (root : Entry) (p : List String) : Bool :=
  match resolve root p with
  | some (Entry.file _) => true
  | _ => false

/-- `os.path.isdir`. -/
def isDirAt (root : Entry) (p : List String) : Bool :=
  match resolve root p with
  | some (Entry.dir _ _) => true
  | _ => false

/-- `os.path.basename`: the part after the last slash. -/
def basename (s : String) : String :=
  String.mk ((s.toList.splitOn (Char.ofNat 47)).getLastD [])

/-- The prefix of a character list up to (excluding) its last dot. -/
def dropAfterLastDot (cs : List Char) : List Char :=
  ((cs.reverse.dropWhile (fun c => !(c == Char.ofNat 46))).drop 1).reverse

/-- `os.path.splitext(...)[0]` for a slash-free string: strip from the last
dot, except that leading dots never start an extension. -/
def splitextRoot (s : String) : String :=
  let cs := s.toList
  let lead := cs.takeWhile (fun c => c == Char.ofNat 46)
  let rest := cs.drop lead.length
  if rest.contains (Char.ofNat 46) then String.mk (lead ++ dropAfterLastDot rest) else s

/-- Substring containment on character lists (Python `needle in hay`). -/
def substrOf : List Char → List Char → Bool
  | needle, [] => needle.isEmpty
  | needle, h :: hs => needle.isPrefixOf (h :: hs) || substrOf needle hs

/-- The extractor-name allow-list test of line 33:
`'ctranspath' in item or 'xiyuewang' in item`. -/
def isCandidateName (n : String) : Bool :=
  substrOf "ctranspath".toList n.toList || substrOf "xiyuewang".toList n.toList

/-- The candidate feature-set directories under `site_path`, in listing
order (lines 30-34): immediate children that are directories and whose name
contains an allow-listed extractor substring. -/
def candidateDirs (root : Entry) (site_path : List String) : List (List String) :=
  match resolve root site_path with
  | some (Entry.dir _ ch) =>
    ((ch.map entryName).filter
      (fun it => isDirAt root (site_path ++ [it]) && isCandidateName it)).map
      (fun it => site_path ++ [it])
  | _ => []

/-- `find_feature_file` (scripts/2.preprocess_eval.py 9-42).  Returns the
path of the first candidate directory containing `<base>.h5`, `ok none` on a
miss; when `site_path` exists but is a plain file, `os.listdir` (line 31)
raises `NotADirectoryError`. -/
def find_feature_file (slide_filename site : String) (features_base_dir : List String)
    (root : Entry) : Except String (Option (List String)) :=
  let base := splitextRoot (basename slide_filename)
  let site_path := features_base_dir ++ [site, "features"]
  if pathExists root site_path = false then Except.ok none
  else if isFileAt root site_path then Except.error "NotADirectoryError"
  else
    match (candidateDirs root site_path).find?
        (fun d => pathExists root (d ++ [base ++ ".h5"])) with
    | some d => Except.ok (some (d ++ [base ++ ".h5"]))
    | none => Except.ok none

/-- The per-site directory discovery of `generate_processing_histograms`
(scripts/2.preprocess_eval.py 119-128): the FIRST candidate directory only
(the loop `break`s at the first match), or `none` when the site has no entry
in the `feature_dirs` dict. -/
def featureDirForSite (root : Entry) (fbd : List String) (site : String) :
    Except String (Option (List String)) :=
  let sp := fbd ++ [site, "features"]
  if pathExists root sp = false then Except.ok none
  else if isFileAt root sp then Except.error "NotADirectoryError"
  else Except.ok ((candidateDirs root sp).head?)

/-- The per-row "processed" marking of `generate_processing_histograms`
(scripts/2.preprocess_eval.py 137-153): a slide counts as processed when the
site's (single, memoized) feature directory contains `<base>.h5`. -/
def processedBatch (filename site : String) (fbd : List String) (root : Entry) :
    Except String Bool :=
  match featureDirForSite root fbd site with
  | Except.error e => Except.error e
  | Except.ok none => Except.ok false
  | Except.ok (some d) =>
    Except.ok (pathExists root (d ++ [splitextRoot (basename filename) ++ ".h5"]))

/-! ## Claim theorems about the Feature Locator -/

/-- Claim C5: in any filesystem where siteA's features directory has
`xiyuewang-v1` as its single candidate extractor sub-directory and that
directory holds `slideX.h5`, looking up the slide record
`(filename = slideX.svs, site = siteA)` returns exactly that path.  Only the
base name without extension of the filename argument matters: the `.svs`
extension is stripped before the `.h5` probe. -/
theorem find_feature_file_hit (root : Entry)
    (h1 : candidateDirs root ["siteA", "features"] = [["siteA", "features", "xiyuewang-v1"]])
    (h2 : pathExists root ["siteA", "features", "xiyuewang-v1", "slideX.h5"] = true) :
    find_feature_file "slideX.svs" "siteA" [] root =
      Except.ok (some ["siteA", "features", "xiyuewang-v1", "slideX.h5"]) := by
  cases hr : resolve root ["siteA", "features"] with
  | none => rw [candidateDirs, hr] at h1; exact absurd h1 (by simp)
  | some e =>
    cases e with
    | file n => rw [candidateDirs, hr] at h1; exact absurd h1 (by simp)
    | dir n ch =>
      have hpe : pathExists root ["siteA", "features"] = true := by
        rw [pathExists, hr]; rfl
      have hfa : isFileAt root ["siteA", "features"] = false := by
        rw [isFileAt, hr]
      have hbase : splitextRoot (basename "slideX.svs") = "slideX" := by decide
      have hcat : ("slideX" ++ ".h5" : String) = "slideX.h5" := by decide
      simp only [find_feature_file, List.nil_append, hbase, hcat, hpe, hfa, h1,
        Bool.true_eq_false, if_false, Bool.false_eq_true, if_true]
      simp [List.find?, h2]

def fsHit : Entry :=
  Entry.dir "" [Entry.dir "siteA" [Entry.dir "features"
    [Entry.dir "xiyuewang-v1" [Entry.file "slideX.h5"]]]]

/-- Witness for C5 on a concrete one-site filesystem. -/
theorem find_feature_file_hit_witness :
    find_feature_file "slideX.svs" "siteA" [] fsHit =
      Except.ok (some ["siteA", "features", "xiyuewang-v1", "slideX.h5"]) :=
  find_feature_file_hit fsHit (by decide) (by decide)

def fsFileAtRoot : Entry :=
  Entry.dir "" [Entry.dir "siteA" [Entry.file "features"]]

/-- Counterexample to C6 as stated: with a plain FILE named `features` at the
site's feature-root path, no candidate sub-directory exists (the resolved
entry is a file), yet find_feature_file raises (`os.listdir` on a file is
`NotADirectoryError`) instead of returning a miss value. -/
theorem find_feature_file_file_root_raises :
    resolve fsFileAtRoot ["siteA", "features"] = some (Entry.file "features") ∧
    find_feature_file "slideX.svs" "siteA" [] fsFileAtRoot =
      Except.error "NotADirectoryError" :=
  ⟨rfl, rfl⟩

/-- Claim C6, amended: provided the site's feature-root path is not a plain
file, find_feature_file never raises; and whenever additionally no candidate
directory holds `<base>.h5` (in particular when the root is absent or there
is no candidate directory at all) it returns the miss value `none`. -/
theorem find_feature_file_miss_is_value (filename site : String) (fbd : List String)
    (root : Entry)
    (hnotfile : isFileAt root (fbd ++ [site, "features"]) = false) :
    (∃ v, find_feature_file filename site fbd root = Except.ok v) ∧
    ((candidateDirs root (fbd ++ [site, "features"])).all
        (fun d => !(pathExists root (d ++ [splitextRoot (basename filename) ++ ".h5"]))) = true →
      find_feature_file filename site fbd root = Except.ok none) := by
  unfold find_feature_file
  cases hpe : pathExists root (fbd ++ [site, "features"]) with
  | false => simp [hpe]
  | true =>
    simp only [hnotfile, hpe, Bool.true_eq_false, if_false, Bool.false_eq_true, if_true]
    constructor
    · cases hf : (candidateDirs root (fbd ++ [site, "features"])).find?
          (fun d => pathExists root (d ++ [splitextRoot (basename filename) ++ ".h5"])) with
      | none => exact ⟨none, rfl⟩
      | some d => exact ⟨some (d ++ [splitextRoot (basename filename) ++ ".h5"]), rfl⟩
    · intro hall
      have hnone : (candidateDirs root (fbd ++ [site, "features"])).find?
          (fun d => pathExists root (d ++ [splitextRoot (basename filename) ++ ".h5"])) = none := by
        apply List.find?_eq_none.mpr
        intro d hd
        have := (List.all_eq_true.mp hall) d hd
        simpa using this
      rw [hnone]

def fsNoCandidate : Entry :=
  Entry.dir "" [Entry.dir "siteA" [Entry.dir "features" [Entry.dir "misc" []]]]

/-- Witness for the amended C6: a site whose features directory holds no
candidate extractor sub-directory yields a miss value, not an error. -/
theorem find_feature_file_miss_is_value_witness :
    (∃ v, find_feature_file "slideX.svs" "siteA" [] fsNoCandidate = Except.ok v) ∧
    ((candidateDirs fsNoCandidate ["siteA", "features"]).all
        (fun d => !(pathExists fsNoCandidate
          (d ++ [splitextRoot (basename "slideX.svs") ++ ".h5"]))) = true →
      find_feature_file "slideX.svs" "siteA" [] fsNoCandidate = Except.ok none) :=
  find_feature_file_miss_is_value "slideX.svs" "siteA" [] fsNoCandidate (by decide)

/-! ## Claim theorems about the batched per-site lookup -/

def fsTwoCandidates : Entry :=
  Entry.dir "" [Entry.dir "siteA" [Entry.dir "features"
    [Entry.dir "ctranspath-a" [], Entry.dir "xiyuewang-b" [Entry.file "slideX.h5"]]]]

/-- Counterexample to C9 as stated: with two candidate extractor directories
where only the second holds the file, the batched scan (which memoizes only
the FIRST candidate directory per site — the source loop breaks at the first
match, line 128) marks the slide unprocessed while the per-slide
find_feature_file finds the path. -/
theorem batched_lookup_disagrees_with_per_slide :
    processedBatch "slideX.svs" "siteA" [] fsTwoCandidates = Except.ok false ∧
    find_feature_file "slideX.svs" "siteA" [] fsTwoCandidates =
      Except.ok (some ["siteA", "features", "xiyuewang-b", "slideX.h5"]) ∧
    ¬(processedBatch "slideX.svs" "siteA" [] fsTwoCandidates = Except.ok true ↔
        ∃ p, find_feature_file "slideX.svs" "siteA" [] fsTwoCandidates =
          Except.ok (some p)) := by
  refine ⟨rfl, rfl, ?_⟩
  intro hiff
  have := hiff.mpr ⟨["siteA", "features", "xiyuewang-b", "slideX.h5"], rfl⟩
  have hfalse : (Except.ok false : Except String Bool) = Except.ok true := this
  simp at hfalse

/-- Claim C9, amended: the memoized per-site scan agrees with the per-slide
find_feature_file whenever the site has at most one candidate extractor
directory (the source keeps only the first).  Under that proviso, the batched
scan marks a slide processed exactly when the per-slide lookup returns a
path. -/
theorem batched_lookup_equiv_single_candidate (filename site : String)
    (fbd : List String) (root : Entry)
    (hsingle : (candidateDirs root (fbd ++ [site, "features"])).length ≤ 1) :
    (processedBatch filename site fbd root = Except.ok true ↔
      ∃ p, find_feature_file filename site fbd root = Except.ok (some p)) := by
  unfold processedBatch featureDirForSite find_feature_file
  cases hpe : pathExists root (fbd ++ [site, "features"]) with
  | false => simp [hpe]
  | true =>
    cases hfa : isFileAt root (fbd ++ [site, "features"]) with
    | true => simp [hpe, hfa]
    | false =>
      simp only [hpe, hfa, Bool.true_eq_false, if_false, Bool.false_eq_true, if_true]
      cases hcd : candidateDirs root (fbd ++ [site, "features"]) with
      | nil => simp
      | cons d ds =>
        cases ds with
        | cons d2 ds2 => rw [hcd] at hsingle; simp at hsingle
        | nil =>
          cases hq : pathExists root (d ++ [splitextRoot (basename filename) ++ ".h5"]) with
          | true => simp [List.find?, hq]
          | false => simp [List.find?, hq]

def fsOneCandidate : Entry :=
  Entry.dir "" [Entry.dir "siteA" [Entry.dir "features"
    [Entry.dir "xiyuewang-v1" [Entry.file "slideY.h5"]]]]

/-- Witness for the amended C9 on a one-candidate filesystem. -/
theorem batched_lookup_equiv_single_candidate_witness :
    processedBatch "slideY.svs" "siteA" [] fsOneCandidate = Except.ok true ↔
      ∃ p, find_feature_file "slideY.svs" "siteA" [] fsOneCandidate = Except.ok (some p) :=
  batched_lookup_equiv_single_candidate "slideY.svs" "siteA" [] fsOneCandidate (by decide)
